import Mathlib

/-!
Shallow embedding of the deathnote whiteboard application (src/app.py).

Coordinates and sizes are modelled as exact rationals (ℚ) standing for the
Python floats of the source; every arithmetic step of the source is carried
out exactly, so "within floating tolerance" statements become equalities.
JSON payloads written by the application are maps from string keys to
primitive values; they are stored structurally (json.dumps/json.loads is the
identity on this representation).  Python's dynamic typing of payload values
is modelled by the JVal sum type, and operations that would raise a Python
TypeError/ValueError are modelled as Except.error.
-/

namespace Deathnote

/-- A 2D point with rational coordinates (a QPointF of app.py). -/
structure Pt where
  x : ℚ
  y : ℚ
deriving DecidableEq

/-- An axis-aligned rectangle given by top-left corner and size (a QRectF). -/
structure Rect where
  x : ℚ
  y : ℚ
  w : ℚ
  h : ℚ
deriving DecidableEq

/-- A decoded image: only its pixel dimensions matter to the application
(QPixmap width/height). -/
structure Pix where
  w : ℕ
  h : ℕ
deriving DecidableEq

/-- A JSON payload value as written or read by app.py: a string, an integer,
a rational number, or a list of coordinate pairs. -/
inductive JVal where
  | s (v : String)
  | i (v : ℤ)
  | q (v : ℚ)
  | pts (v : List Pt)
deriving DecidableEq

/-- A JSON object payload: association list from keys to values, in insertion
order (Python dict preserves insertion order). -/
abbrev JPayload := List (String × JVal)

/-- Python dict lookup p.get(k) returning None when the key is absent. -/
def jGet (p : JPayload) (k : String) : Option JVal :=
  (p.find? (fun kv => kv.1 == k)).map (fun kv => kv.2)

/-- Python dict lookup with default, p.get(k, d). -/
def jGetD (p : JPayload) (k : String) (d : JVal) : JVal :=
  (jGet p k).getD d

/-- Python truthiness of a payload value ("", 0 and [] are falsy). -/
def jFalsy : JVal → Bool
  | .s v => v == ""
  | .i v => v == 0
  | .q v => v == 0
  | .pts v => v.isEmpty

/-- Python int(v): identity on ints, truncation toward zero on floats,
digit-string parsing on strings; anything else raises (none). -/
def asIntPy : JVal → Option ℤ
  | .i v => some v
  | .q v => some (v.num / (v.den : ℤ))
  | .s v => v.toInt?
  | .pts _ => none

/-- Python float(v): ints and floats convert, numeric strings parse
(integer-valued literals are the only ones the application ever writes);
anything else raises (none). -/
def asFloatPy : JVal → Option ℚ
  | .i v => some (v : ℚ)
  | .q v => some v
  | .s v => (v.toInt?).map (fun n => (n : ℚ))
  | .pts _ => none

/-- The string content of a payload value.  The application only ever writes
strings into the keys read through this function; values of other runtime
types are carried opaquely by Python and are flattened to "" here. -/
def jStr : JVal → String
  | .s v => v
  | _ => ""

/-- Python truthiness of an optional integer id (None and 0 are falsy);
models the `if not self.item_id` / `if self.item_id` guards. -/
def pyTruthy : Option ℕ → Bool
  | none => false
  | some n => n != 0

/-- Python round() on a rational: round half to even (banker's rounding),
as performed by `int(round(v * 100))` in CardItem. -/
def pyRound (v : ℚ) : ℤ :=
  if v - (Rat.floor v : ℚ) < 1/2 then Rat.floor v
  else if 1/2 < v - (Rat.floor v : ℚ) then Rat.floor v + 1
  else if Even (Rat.floor v) then Rat.floor v else Rat.floor v + 1

/-- A stored row of the board_items table (src/app.py db_init): id, type,
geometry, z order and JSON payload.  The payload column is kept structurally;
json.dumps followed by json.loads is the identity on it. -/
structure Row where
  id : ℕ
  type : String
  x : ℚ
  y : ℚ
  w : ℚ
  h : ℚ
  z : ℤ
  payload : JPayload
deriving DecidableEq

/-- The board_items table: its rows in insertion order together with the next
id AUTOINCREMENT will assign (sqlite assigns ids 1, 2, ...). -/
structure DB where
  rows : List Row
  nextId : ℕ
deriving DecidableEq

/-- Well-formedness of the table as sqlite maintains it: ids are distinct and
below the autoincrement counter. -/
def DB.Wf (db : DB) : Prop :=
  (db.rows.map Row.id).Nodup ∧ ∀ r ∈ db.rows, r.id < db.nextId

/-- db_insert_item of app.py: INSERT a new row, returning lastrowid. -/
def db_insert_item (db : DB) (item_type : String) (x y w h : ℚ)
    (payload : JPayload) (z : ℤ) : DB × ℕ :=
  (⟨db.rows ++ [⟨db.nextId, item_type, x, y, w, h, z, payload⟩],
    db.nextId + 1⟩, db.nextId)

/-- db_update_geom of app.py: UPDATE x, y, w, h of the row with the given id
(matching no row is a no-op, as in SQL). -/
def db_update_geom (db : DB) (item_id : ℕ) (x y w h : ℚ) : DB :=
  ⟨db.rows.map (fun r =>
    if r.id = item_id then { r with x := x, y := y, w := w, h := h } else r),
   db.nextId⟩

/-- db_update_payload of app.py: UPDATE payload of the row with the given id. -/
def db_update_payload (db : DB) (item_id : ℕ) (payload : JPayload) : DB :=
  ⟨db.rows.map (fun r =>
    if r.id = item_id then { r with payload := payload } else r),
   db.nextId⟩

/-- db_delete of app.py: DELETE the row with the given id. -/
def db_delete (db : DB) (item_id : ℕ) : DB :=
  ⟨db.rows.filter (fun r => r.id != item_id), db.nextId⟩

/-- The ORDER BY z, id ordering of db_load_all. -/
def rowLe (a b : Row) : Prop :=
  a.z < b.z ∨ (a.z = b.z ∧ a.id ≤ b.id)

instance : DecidableRel rowLe := fun a b => by
  unfold rowLe
  infer_instance

/-- db_load_all of app.py: SELECT every row ORDER BY z, id.  The payload
column already holds the parsed JSON object (see Row). -/
def db_load_all (db : DB) : List Row :=
  List.insertionSort rowLe db.rows

/-- The payload of a CardItem (the CardData dataclass of app.py). -/
structure CardData where
  title : String
  desc : String
  progress : ℤ
deriving DecidableEq

/-- A visible item of the QGraphicsScene: CardItem, ImageItem, BoardTextItem,
or a QGraphicsPathItem produced by drawing.  item_id / data0 is the storage
id when present (BoardTextItem has no stored size: its boundingRect is
toolkit-determined, so only the position is carried).  Path items carry their
point sequence, pen width and pen color; their geometry is derived from the
points. -/
inductive SceneItem where
  | cardItem (item_id : Option ℕ) (data : CardData) (pos : Pt) (w h : ℚ)
  | imageItem (item_id : Option ℕ) (path : String) (pos : Pt) (w h : ℚ)
  | textItem (item_id : Option ℕ) (color : String) (html : String) (pos : Pt)
  | pathItem (data0 : Option ℕ) (points : List Pt) (width : ℚ) (color : String)
deriving DecidableEq

/-- The storage id an item carries: item_id for card/image/text items,
data(0) for drawn path items. -/
def itemId : SceneItem → Option ℕ
  | .cardItem item_id _ _ _ _ => item_id
  | .imageItem item_id _ _ _ _ => item_id
  | .textItem item_id _ _ _ => item_id
  | .pathItem data0 _ _ _ => data0

/-- The data(0) slot: only path items ever receive setData(0, id) in app.py;
for every other item kind data(0) is unset (None, falsy). -/
def itemData0 : SceneItem → Option ℕ
  | .pathItem data0 _ _ _ => data0
  | _ => none

/-- The bounding rectangle of a polyline (QPainterPath.boundingRect of a
moveTo/lineTo path): the min/max envelope of its points. -/
def bbox : List Pt → Rect
  | [] => ⟨0, 0, 0, 0⟩
  | p :: ps =>
    let xmin := ps.foldl (fun m q => min m q.x) p.x
    let xmax := ps.foldl (fun m q => max m q.x) p.x
    let ymin := ps.foldl (fun m q => min m q.y) p.y
    let ymax := ps.foldl (fun m q => max m q.y) p.y
    ⟨xmin, ymin, xmax - xmin, ymax - ymin⟩

/-- The bounding rectangle of a scene item, used by the scene's rectangle
query.  Text items have toolkit-determined extents; a degenerate rectangle at
their position stands in (they are never the target of the eraser, which only
acts on items whose data(0) is set). -/
def itemRect : SceneItem → Rect
  | .cardItem _ _ pos w h => ⟨pos.x, pos.y, w, h⟩
  | .imageItem _ _ pos w h => ⟨pos.x, pos.y, w, h⟩
  | .textItem _ _ _ pos => ⟨pos.x, pos.y, 0, 0⟩
  | .pathItem _ points _ _ => bbox points

/-- Closed-rectangle intersection test, as used by the scene's items(QRectF)
query. -/
def rectIntersects (a b : Rect) : Prop :=
  a.x ≤ b.x + b.w ∧ b.x ≤ a.x + a.w ∧ a.y ≤ b.y + b.h ∧ b.y ≤ a.y + a.h

instance : DecidablePred (fun ab : Rect × Rect => rectIntersects ab.1 ab.2) :=
  fun _ => by unfold rectIntersects; infer_instance

instance (a b : Rect) : Decidable (rectIntersects a b) := by
  unfold rectIntersects; infer_instance

/-- The html content BoardTextItem ends up with: setHtml is only called on a
truthy value, and calling it with a truthy non-string raises. -/
def htmlOf (v : JVal) : Except String String :=
  match v with
  | .s s => .ok s
  | v => if jFalsy v then .ok "" else .error "setHtml: TypeError"

/-- The color argument of QColor(...) in the reload path; the application only
ever writes color names (strings). -/
def colorOf (v : JVal) : String := jStr v

/-- Python len(v): lists and strings have a length, numbers raise. -/
def jLen : JVal → Option ℕ
  | .pts l => some l.length
  | .s s => some s.length
  | _ => none

/-- One iteration of the load_from_db loop of app.py: reconstruct the typed
item of a stored record, .ok none when the record is silently skipped
(unknown kind, falsy or unresolvable image path, fewer than 2 stroke points),
.error when the Python code would raise (failed int()/float() conversion,
setHtml or len() on a value of the wrong runtime type). -/
def loadRec (fs : String → Option Pix) (r : Row) :
    Except String (Option SceneItem) :=
  let p := r.payload
  if r.type = "card" then
    let title := jStr (jGetD p "title" (.s "Без названия"))
    let desc := jStr (jGetD p "desc" (.s ""))
    match asIntPy (jGetD p "progress" (.i 0)) with
    | none => .error "int: invalid progress"
    | some progress =>
      .ok (some (.cardItem (some r.id) ⟨title, desc, progress⟩
        ⟨r.x, r.y⟩ r.w r.h))
  else if r.type = "image" then
    match jGet p "path" with
    | none => .ok none
    | some v =>
      if jFalsy v then .ok none
      else
        match v with
        | .s path =>
          match fs path with
          | none => .ok none
          | some _ => .ok (some (.imageItem (some r.id) path ⟨r.x, r.y⟩ r.w r.h))
        | _ => .error "QPixmap: TypeError"
  else if r.type = "text" then
    match htmlOf (jGetD p "html" (.s "")) with
    | .error e => .error e
    | .ok html =>
      .ok (some (.textItem (some r.id) (colorOf (jGetD p "color" (.s "#f2f2f2")))
        html ⟨r.x, r.y⟩))
  else if r.type = "draw" then
    let ptsv := jGetD p "points" (.pts [])
    match asFloatPy (jGetD p "width" (.i 3)) with
    | none => .error "float: invalid width"
    | some width =>
      let color := colorOf (jGetD p "color" (.s "#111111"))
      match jLen ptsv with
      | none => .error "len: TypeError"
      | some n =>
        if n < 2 then .ok none
        else
          match ptsv with
          | .pts pts => .ok (some (.pathItem (some r.id) pts width color))
          | _ => .error "unpack: TypeError"
  else .ok none

/-- The load_from_db loop over the ordered records: errors propagate (they
abort the whole load), skipped records contribute nothing, reconstructed
items are added in record order. -/
def loadRecords (fs : String → Option Pix) : List Row →
    Except String (List SceneItem)
  | [] => .ok []
  | r :: rs =>
    match loadRec fs r with
    | .error e => .error e
    | .ok none => loadRecords fs rs
    | .ok (some it) =>
      match loadRecords fs rs with
      | .error e => .error e
      | .ok scene => .ok (it :: scene)

/-- MainWindow.load_from_db of app.py: clear the scene and replay every
stored record in ORDER BY z, id order.  fs models the file system seen by
QPixmap: the decoded image for each path, none when the file is missing or
does not decode. -/
def load_from_db (fs : String → Option Pix) (db : DB) :
    Except String (List SceneItem) :=
  loadRecords fs (db_load_all db)

/-- The default size an ImageItem computes for a freshly picked image
(ImageItem.__init__ with w, h omitted): inflate to at least 160 on each side,
then scale down so the larger side is at most 520. -/
def imageDefaultSize (pix : Pix) : ℚ × ℚ :=
  let w0 : ℚ := max 160 (pix.w : ℚ)
  let h0 : ℚ := max 160 (pix.h : ℚ)
  let scale : ℚ := min 1 (520 / max w0 h0)
  (w0 * scale, h0 * scale)

/-- Outcome of a user-facing operation: the updated storage, the updated
scene, and whether an error dialog was shown to the user. -/
structure OpResult where
  db : DB
  scene : List SceneItem
  errorShown : Bool
deriving DecidableEq

/-- MainWindow.add_card of app.py.  accepted models the card dialog's
accept/cancel result; title and desc are the stripped dialog fields.  An
empty title is reported and aborts before any insert or scene change;
otherwise the row is inserted first and the item added to the scene with the
returned id. -/
def add_card (db : DB) (scene : List SceneItem) (accepted : Bool)
    (title desc : String) : OpResult :=
  if accepted = false then ⟨db, scene, false⟩
  else if title = "" then ⟨db, scene, true⟩
  else
    let payload : JPayload :=
      [("title", .s title), ("desc", .s desc), ("progress", .i 0)]
    let ins := db_insert_item db "card" 60 60 300 190 payload 0
    ⟨ins.1, scene ++ [.cardItem (some ins.2) ⟨title, desc, 0⟩ ⟨60, 60⟩ 300 190],
     false⟩

/-- MainWindow.add_image of app.py.  path is the file dialog result (the
empty string on cancel); fs models QPixmap decoding.  An undecodable file is
reported and aborts before any insert or scene change; otherwise the row is
inserted with the computed default size and the item added with the returned
id. -/
def add_image (db : DB) (scene : List SceneItem) (path : String)
    (fs : String → Option Pix) : OpResult :=
  if path = "" then ⟨db, scene, false⟩
  else
    match fs path with
    | none => ⟨db, scene, true⟩
    | some pix =>
      let wh := imageDefaultSize pix
      let ins := db_insert_item db "image" 120 120 wh.1 wh.2 [("path", .s path)] 0
      ⟨ins.1, scene ++ [.imageItem (some ins.2) path ⟨120, 120⟩ wh.1 wh.2], false⟩

/-- MainWindow.add_text_at of app.py: a click in text mode inserts a
placeholder row (size 1x1, empty html, current text color), then adds the
focused text item carrying the returned id. -/
def add_text_at (db : DB) (scene : List SceneItem) (colorName : String)
    (p : Pt) : DB × List SceneItem :=
  let payload : JPayload := [("html", .s ""), ("color", .s colorName)]
  let ins := db_insert_item db "text" p.x p.y 1 1 payload 0
  (ins.1, scene ++ [.textItem (some ins.2) colorName "" p])

/-- setData(0, draw_id) on the just-finished path item. -/
def setData0 (it : SceneItem) (draw_id : ℕ) : SceneItem :=
  match it with
  | .pathItem _ points width color => .pathItem (some draw_id) points width color
  | other => other

/-- MainWindow.save_draw_path of app.py: at pointer-up, the captured points
of the painter path are collected; fewer than 2 points discards the visible
path element (no row created), otherwise a stroke row holding the points,
width and color is inserted with the path's bounding box as geometry and the
visible element is tagged with the returned id. -/
def save_draw_path (db : DB) (scene : List SceneItem) (path_item : SceneItem)
    (pts : List Pt) (color : String) (width : ℤ) : DB × List SceneItem :=
  if pts.length < 2 then (db, scene.erase path_item)
  else
    let br := bbox pts
    let payload : JPayload :=
      [("points", .pts pts), ("width", .i width), ("color", .s color)]
    let ins := db_insert_item db "draw" br.x br.y br.w br.h payload 0
    (ins.1, scene.map (fun it => if it = path_item then setData0 it ins.2 else it))

/-- The probe square of the eraser: ±8 units around the pointer. -/
def probeRect (pos : Pt) : Rect :=
  ⟨pos.x - 8, pos.y - 8, 16, 16⟩

/-- MainWindow.erase_at of app.py: query the scene for items intersecting the
±8 probe square (topmost first, i.e. latest-added first for equal z), delete
the first one whose data(0) is truthy from both storage and scene, and stop
after one deletion. -/
def erase_at (db : DB) (scene : List SceneItem) (pos : Pt) :
    DB × List SceneItem :=
  let hit := scene.reverse.filter
    (fun it => decide (rectIntersects (itemRect it) (probeRect pos)))
  match hit.find? (fun it => pyTruthy (itemData0 it)) with
  | some it =>
    (db_delete db ((itemData0 it).getD 0), scene.erase it)
  | none => (db, scene)

/-- DraggableResizableItem._persist of app.py: write through position and
size, gated on a truthy item_id (no statement at all otherwise). -/
def dri_persist (item_id : Option ℕ) (x y w h : ℚ) (db : DB) : DB :=
  if pyTruthy item_id then db_update_geom db ((item_id).getD 0) x y w h else db

/-- The resize sub-state captured at pointer-down on the handle:
_resizing, _resize_start_pos, _start_w, _start_h, together with the item's
current geometry. -/
structure DriState where
  item_id : Option ℕ
  pos : Pt
  w : ℚ
  h : ℚ
  resizing : Bool
  resize_start_pos : Pt
  start_w : ℚ
  start_h : ℚ
deriving DecidableEq

/-- DraggableResizableItem.mouseMoveEvent of app.py while resizing: the new
size is max(100, start_w + dx) by max(70, start_h + dy), written to the item
and persisted on every move. -/
def dri_mouseMoveEvent (st : DriState) (ev : Pt) (db : DB) : DriState × DB :=
  if st.resizing then
    let new_w := max 100 (st.start_w + (ev.x - st.resize_start_pos.x))
    let new_h := max 70 (st.start_h + (ev.y - st.resize_start_pos.y))
    let st2 := { st with w := new_w, h := new_h }
    (st2, dri_persist st2.item_id st2.pos.x st2.pos.y new_w new_h db)
  else (st, db)

/-- CardItem._progress_rect of app.py: a 14-unit-high bar inset 14 units from
the left, right and bottom edges. -/
def progress_rect (w h : ℚ) : Rect :=
  ⟨14, h - 14 - 14, w - 2 * 14, 14⟩

/-- CardItem._set_progress_from_pos of app.py: map the horizontal offset in
the progress bar linearly to 0..1 (guarding the divisor at 1), clamp, scale
to 0..100 with Python rounding, and write the payload through when the item
has a storage id. -/
def set_progress_from_pos (item_id : Option ℕ) (title desc : String)
    (w h : ℚ) (x : ℚ) (db : DB) : ℤ × DB :=
  let bar := progress_rect w h
  let v0 := (x - bar.x) / max 1 bar.w
  let v := max 0 (min 1 v0)
  let progress := pyRound (v * 100)
  let payload : JPayload :=
    [("title", .s title), ("desc", .s desc), ("progress", .i progress)]
  let db2 := if pyTruthy item_id then db_update_payload db ((item_id).getD 0) payload
    else db
  (progress, db2)

/-- BoardTextItem._persist_geom of app.py: write through position and the
toolkit-computed bounding size, gated on a truthy item_id. -/
def text_persist_geom (item_id : Option ℕ) (pos : Pt) (bw bh : ℚ)
    (db : DB) : DB :=
  if pyTruthy item_id then db_update_geom db ((item_id).getD 0) pos.x pos.y bw bh
  else db

/-- BoardTextItem._persist_payload of app.py: write through html and color,
gated on a truthy item_id. -/
def text_persist_payload (item_id : Option ℕ) (html color : String)
    (db : DB) : DB :=
  if pyTruthy item_id then
    db_update_payload db ((item_id).getD 0) [("html", .s html), ("color", .s color)]
  else db

/-- The BoardView interaction state relevant to drawing: the mode, whether a
stroke is in progress, and the accumulated points of the current path. -/
structure ViewState where
  mode : String
  drawing : Bool
  current_path : Option (List Pt)
  draw_color : String
  draw_width : ℤ
deriving DecidableEq

/-- BoardView.mousePressEvent of app.py, draw branch: pointer-down in draw
mode starts a path at the click point and immediately adds the visible path
element to the scene (no storage row exists yet).  The text and erase
branches dispatch to add_text_at and erase_at, modelled separately; every
other mode leaves the drawing state and the scene unchanged here. -/
def boardView_mousePress (vs : ViewState) (scene : List SceneItem) (p : Pt) :
    ViewState × List SceneItem :=
  if vs.mode = "draw" then
    ({ vs with drawing := true, current_path := some [p] },
     scene ++ [.pathItem none [p] (vs.draw_width : ℚ) vs.draw_color])
  else (vs, scene)

/-! Helper lemmas about rounding. -/

theorem floor_cast_le (v : ℚ) : (Rat.floor v : ℚ) ≤ v :=
  Rat.le_floor.mp le_rfl

theorem floor_le_of_le {v : ℚ} {n : ℤ} (h : v ≤ (n : ℚ)) : Rat.floor v ≤ n := by
  by_contra hc
  push_neg at hc
  have h2 : ((n + 1 : ℤ) : ℚ) ≤ v := Rat.le_floor.mp (by omega)
  push_cast at h2
  linarith

theorem le_floor_of_le {v : ℚ} {n : ℤ} (h : (n : ℚ) ≤ v) : n ≤ Rat.floor v :=
  Rat.le_floor.mpr h

theorem le_pyRound {n : ℤ} {v : ℚ} (h : (n : ℚ) ≤ v) : n ≤ pyRound v := by
  have h1 := le_floor_of_le h
  unfold pyRound
  split
  · omega
  split
  · omega
  split <;> omega

theorem pyRound_le {n : ℤ} {v : ℚ} (h : v ≤ (n : ℚ)) : pyRound v ≤ n := by
  have h1 := floor_le_of_le h
  unfold pyRound
  split
  · omega
  next h2 =>
    push_neg at h2
    split
    · by_contra hc
      push_neg at hc
      have h3 : (n : ℚ) ≤ (Rat.floor v : ℚ) := by exact_mod_cast (by omega : n ≤ Rat.floor v)
      linarith
    split
    · omega
    · by_contra hc
      push_neg at hc
      have h3 : (n : ℚ) ≤ (Rat.floor v : ℚ) := by exact_mod_cast (by omega : n ≤ Rat.floor v)
      linarith

theorem floor_intCast (n : ℤ) : Rat.floor (n : ℚ) = n :=
  le_antisymm (floor_le_of_le le_rfl) (le_floor_of_le le_rfl)

theorem pyRound_intCast (n : ℤ) : pyRound (n : ℚ) = n := by
  unfold pyRound
  rw [floor_intCast]
  norm_num

/-- C2: during a resize gesture in select mode, every pointer-move sets the
item's size to max(min_size, start_size + (pointer - start_pointer))
componentwise, with min_size = (100, 70) (within the claimed 80-100 and 60-70
policy ranges), so the resulting width is always at least 100 and the height
at least 70; the value is clamped, never rejected. -/
theorem resize_move_clamps (st : DriState) (ev : Pt) (db : DB)
    (hres : st.resizing = true) :
    (dri_mouseMoveEvent st ev db).1.w =
      max 100 (st.start_w + (ev.x - st.resize_start_pos.x)) ∧
    (dri_mouseMoveEvent st ev db).1.h =
      max 70 (st.start_h + (ev.y - st.resize_start_pos.y)) ∧
    100 ≤ (dri_mouseMoveEvent st ev db).1.w ∧
    70 ≤ (dri_mouseMoveEvent st ev db).1.h := by
  unfold dri_mouseMoveEvent
  rw [if_pos hres]
  exact ⟨rfl, rfl, le_max_left _ _, le_max_left _ _⟩

/-- Witness for C2 at a concrete resize step (start size 300x190, pointer
moved by (-500, -500): both components clamp to the minimum). -/
theorem resize_move_clamps_witness :
    (⟨some 1, ⟨0, 0⟩, 300, 190, true, ⟨5, 5⟩, 300, 190⟩ : DriState).resizing = true ∧
    (100 ≤ (dri_mouseMoveEvent ⟨some 1, ⟨0, 0⟩, 300, 190, true, ⟨5, 5⟩, 300, 190⟩
        ⟨-495, -495⟩ ⟨[], 1⟩).1.w ∧
     70 ≤ (dri_mouseMoveEvent ⟨some 1, ⟨0, 0⟩, 300, 190, true, ⟨5, 5⟩, 300, 190⟩
        ⟨-495, -495⟩ ⟨[], 1⟩).1.h) :=
  ⟨rfl,
   (resize_move_clamps ⟨some 1, ⟨0, 0⟩, 300, 190, true, ⟨5, 5⟩, 300, 190⟩
      ⟨-495, -495⟩ ⟨[], 1⟩ rfl).2.2⟩

/-- C3: a draw gesture finishing with fewer than 2 captured points creates no
storage row (the table is untouched) and the visible path element is removed
from the scene, leaving no visible stroke. -/
theorem short_stroke_discarded (db : DB) (scene : List SceneItem)
    (path_item : SceneItem) (pts : List Pt) (color : String) (width : ℤ)
    (hlen : pts.length < 2) (honce : scene.count path_item ≤ 1) :
    (save_draw_path db scene path_item pts color width).1 = db ∧
    path_item ∉ (save_draw_path db scene path_item pts color width).2 := by
  have e : save_draw_path db scene path_item pts color width =
      (db, scene.erase path_item) := by
    unfold save_draw_path
    rw [if_pos hlen]
  rw [e]
  refine ⟨rfl, ?_⟩
  have hc : (scene.erase path_item).count path_item = scene.count path_item - 1 :=
    List.count_erase_self path_item scene
  have : (scene.erase path_item).count path_item = 0 := by omega
  exact List.count_eq_zero.mp this

/-- Witness for C3: the single-click scenario — one captured point (0, 0),
pointer-up with no move — creates no row and leaves no stroke. -/
theorem short_stroke_discarded_witness :
    [(⟨0, 0⟩ : Pt)].length < 2 ∧
    ((save_draw_path ⟨[], 1⟩ [.pathItem none [⟨0, 0⟩] 3 "#111111"]
        (.pathItem none [⟨0, 0⟩] 3 "#111111") [⟨0, 0⟩] "#111111" 3).1 = ⟨[], 1⟩ ∧
     (.pathItem none [⟨0, 0⟩] 3 "#111111") ∉
       (save_draw_path ⟨[], 1⟩ [.pathItem none [⟨0, 0⟩] 3 "#111111"]
        (.pathItem none [⟨0, 0⟩] 3 "#111111") [⟨0, 0⟩] "#111111" 3).2) :=
  ⟨by decide, short_stroke_discarded ⟨[], 1⟩ [.pathItem none [⟨0, 0⟩] 3 "#111111"]
    (.pathItem none [⟨0, 0⟩] 3 "#111111") [⟨0, 0⟩] "#111111" 3
    (by decide) (by decide)⟩

/-- C4: a draw gesture finishing with at least 2 captured points inserts
exactly one stroke row whose payload holds the point sequence, width and
color, whose geometry is the bounding box of the points, and the visible path
element is tagged (setData slot 0) with the new storage id. -/
theorem stroke_persisted (db : DB) (scene : List SceneItem)
    (path_item : SceneItem) (pts : List Pt) (color : String) (width : ℤ)
    (hlen : 2 ≤ pts.length) (hmem : path_item ∈ scene) :
    (save_draw_path db scene path_item pts color width).1.rows =
      db.rows ++ [⟨db.nextId, "draw", (bbox pts).x, (bbox pts).y, (bbox pts).w,
        (bbox pts).h, 0,
        [("points", .pts pts), ("width", .i width), ("color", .s color)]⟩] ∧
    setData0 path_item db.nextId ∈
      (save_draw_path db scene path_item pts color width).2 := by
  have hnlt : ¬ pts.length < 2 := not_lt.mpr hlen
  unfold save_draw_path
  rw [if_neg hnlt]
  refine ⟨rfl, ?_⟩
  have h2 := List.mem_map_of_mem
    (fun it => if it = path_item then setData0 it (db_insert_item db "draw"
      (bbox pts).x (bbox pts).y (bbox pts).w (bbox pts).h
      [("points", .pts pts), ("width", .i width), ("color", .s color)] 0).2 else it)
    hmem
  simpa using h2

/-- Witness for C4: the scenario of the spec — points (0,0), (10,0), (10,10)
yield one stroke row with those 3 points and bounding box (0,0)-(10,10). -/
theorem stroke_persisted_witness :
    2 ≤ ([⟨0, 0⟩, ⟨10, 0⟩, ⟨10, 10⟩] : List Pt).length ∧
    bbox [⟨0, 0⟩, ⟨10, 0⟩, ⟨10, 10⟩] = ⟨0, 0, 10, 10⟩ ∧
    (save_draw_path ⟨[], 1⟩ [.pathItem none [⟨0, 0⟩, ⟨10, 0⟩, ⟨10, 10⟩] 3 "#111111"]
        (.pathItem none [⟨0, 0⟩, ⟨10, 0⟩, ⟨10, 10⟩] 3 "#111111")
        [⟨0, 0⟩, ⟨10, 0⟩, ⟨10, 10⟩] "#111111" 3).1.rows =
      [] ++ [⟨1, "draw", (bbox [⟨0, 0⟩, ⟨10, 0⟩, ⟨10, 10⟩]).x,
        (bbox [⟨0, 0⟩, ⟨10, 0⟩, ⟨10, 10⟩]).y,
        (bbox [⟨0, 0⟩, ⟨10, 0⟩, ⟨10, 10⟩]).w,
        (bbox [⟨0, 0⟩, ⟨10, 0⟩, ⟨10, 10⟩]).h, 0,
        [("points", .pts [⟨0, 0⟩, ⟨10, 0⟩, ⟨10, 10⟩]), ("width", .i 3),
          ("color", .s "#111111")]⟩] ∧
    setData0 (.pathItem none [⟨0, 0⟩, ⟨10, 0⟩, ⟨10, 10⟩] 3 "#111111") 1 ∈
      (save_draw_path ⟨[], 1⟩ [.pathItem none [⟨0, 0⟩, ⟨10, 0⟩, ⟨10, 10⟩] 3 "#111111"]
        (.pathItem none [⟨0, 0⟩, ⟨10, 0⟩, ⟨10, 10⟩] 3 "#111111")
        [⟨0, 0⟩, ⟨10, 0⟩, ⟨10, 10⟩] "#111111" 3).2 :=
  ⟨by decide, by norm_num [bbox],
   (stroke_persisted ⟨[], 1⟩ [.pathItem none [⟨0, 0⟩, ⟨10, 0⟩, ⟨10, 10⟩] 3 "#111111"]
      (.pathItem none [⟨0, 0⟩, ⟨10, 0⟩, ⟨10, 10⟩] 3 "#111111")
      [⟨0, 0⟩, ⟨10, 0⟩, ⟨10, 10⟩] "#111111" 3 (by decide) (by decide)).1,
   (stroke_persisted ⟨[], 1⟩ [.pathItem none [⟨0, 0⟩, ⟨10, 0⟩, ⟨10, 10⟩] 3 "#111111"]
      (.pathItem none [⟨0, 0⟩, ⟨10, 0⟩, ⟨10, 10⟩] 3 "#111111")
      [⟨0, 0⟩, ⟨10, 0⟩, ⟨10, 10⟩] "#111111" 3 (by decide) (by decide)).2⟩

/-- C5: for any card geometry and any click or drag x-position, the computed
progress is an integer in [0, 100], obtained by mapping the horizontal offset
within the progress-bar region linearly to 0-100 and clamping at the ends; a
click at the exact left edge of the bar yields 0, one at the exact right edge
yields 100 (whenever the bar is at least 1 unit wide, which the 100-unit
minimum card width guarantees), and the change is written through to the
item's payload row whenever the item has a storage id. -/
theorem progress_clamped (item_id : Option ℕ) (title desc : String)
    (w h x : ℚ) (db : DB) :
    (0 ≤ (set_progress_from_pos item_id title desc w h x db).1 ∧
     (set_progress_from_pos item_id title desc w h x db).1 ≤ 100) ∧
    (x = (progress_rect w h).x →
      (set_progress_from_pos item_id title desc w h x db).1 = 0) ∧
    (1 ≤ (progress_rect w h).w →
      x = (progress_rect w h).x + (progress_rect w h).w →
      (set_progress_from_pos item_id title desc w h x db).1 = 100) ∧
    (∀ i : ℕ, item_id = some i → i ≠ 0 →
      (set_progress_from_pos item_id title desc w h x db).2 =
        db_update_payload db i [("title", .s title), ("desc", .s desc),
          ("progress", .i (set_progress_from_pos item_id title desc w h x db).1)]) := by
  refine ⟨⟨?_, ?_⟩, ?_, ?_, ?_⟩
  · simp only [set_progress_from_pos]
    have h0 : (0 : ℚ) ≤ max 0 (min 1 ((x - (progress_rect w h).x) /
        max 1 (progress_rect w h).w)) := le_max_left _ _
    have : ((0 : ℤ) : ℚ) ≤ max 0 (min 1 ((x - (progress_rect w h).x) /
        max 1 (progress_rect w h).w)) * 100 := by push_cast; nlinarith
    exact le_pyRound this
  · simp only [set_progress_from_pos]
    have h0 : (0 : ℚ) ≤ max 0 (min 1 ((x - (progress_rect w h).x) /
        max 1 (progress_rect w h).w)) := le_max_left _ _
    have h1 : max 0 (min 1 ((x - (progress_rect w h).x) /
        max 1 (progress_rect w h).w)) ≤ 1 :=
      max_le (by norm_num) (min_le_left _ _)
    have : max 0 (min 1 ((x - (progress_rect w h).x) /
        max 1 (progress_rect w h).w)) * 100 ≤ ((100 : ℤ) : ℚ) := by
      push_cast; nlinarith
    exact pyRound_le this
  · intro hx
    have hx14 : x = 14 := by simpa [progress_rect] using hx
    subst hx14
    simp only [set_progress_from_pos, progress_rect]
    rw [show ((14 : ℚ) - 14) = 0 by norm_num, zero_div,
      min_eq_right (by norm_num : (0 : ℚ) ≤ 1), max_self, zero_mul]
    simpa using pyRound_intCast 0
  · intro hw hx
    simp only [progress_rect] at hw hx
    simp only [set_progress_from_pos, progress_rect]
    have hxr : x - 14 = w - 2 * 14 := by rw [hx]; ring
    rw [hxr, max_eq_right hw,
      div_self (by linarith : w - 2 * 14 ≠ 0)]
    rw [min_self, max_eq_right (by norm_num : (0 : ℚ) ≤ 1), one_mul]
    rw [show (100 : ℚ) = ((100 : ℤ) : ℚ) by norm_num]
    exact pyRound_intCast 100
  · intro i hi hne
    simp only [set_progress_from_pos, hi, pyTruthy]
    rw [if_pos (by simpa using hne)]
    rfl

/-- Witness for C5 on a default-size card (300x190) with storage id 4: left
edge x = 14 gives 0, right edge x = 286 gives 100, and the payload row is
written through. -/
theorem progress_clamped_witness :
    ((14 : ℚ) = (progress_rect 300 190).x →
      (set_progress_from_pos (some 4) "t" "d" 300 190 14 ⟨[], 5⟩).1 = 0) ∧
    (1 ≤ (progress_rect 300 190).w →
      (286 : ℚ) = (progress_rect 300 190).x + (progress_rect 300 190).w →
      (set_progress_from_pos (some 4) "t" "d" 300 190 286 ⟨[], 5⟩).1 = 100) ∧
    ((set_progress_from_pos (some 4) "t" "d" 300 190 286 ⟨[], 5⟩).2 =
      db_update_payload ⟨[], 5⟩ 4 [("title", .s "t"), ("desc", .s "d"),
        ("progress", .i (set_progress_from_pos (some 4) "t" "d" 300 190 286 ⟨[], 5⟩).1)]) :=
  ⟨(progress_clamped (some 4) "t" "d" 300 190 14 ⟨[], 5⟩).2.1,
   (progress_clamped (some 4) "t" "d" 300 190 286 ⟨[], 5⟩).2.2.1,
   (progress_clamped (some 4) "t" "d" 300 190 286 ⟨[], 5⟩).2.2.2 4 rfl (by decide)⟩

/-- C10: every geometry or payload write-through is gated on a truthy storage
id: when the id is absent (None) or falsy (0), the persist operations of the
draggable items, of text items (geometry and payload), and of the card
progress handler issue no storage statement at all, leaving the table
untouched; and when the id is truthy, the geometry UPDATE touches no row
other than the one with that id. -/
theorem write_through_gated (x y w h bw bh : ℚ) (pos : Pt)
    (title desc html color : String) (db : DB) :
    (∀ item_id : Option ℕ, item_id = none ∨ item_id = some 0 →
      dri_persist item_id x y w h db = db ∧
      text_persist_geom item_id pos bw bh db = db ∧
      text_persist_payload item_id html color db = db ∧
      (set_progress_from_pos item_id title desc w h x db).2 = db) ∧
    (∀ i : ℕ, i ≠ 0 → ∀ r ∈ db.rows, r.id ≠ i →
      r ∈ (dri_persist (some i) x y w h db).rows) := by
  constructor
  · intro item_id hid
    have hfalse : pyTruthy item_id = false := by
      rcases hid with hid | hid <;> simp [hid, pyTruthy]
    refine ⟨?_, ?_, ?_, ?_⟩
    · simp [dri_persist, hfalse]
    · simp [text_persist_geom, hfalse]
    · simp [text_persist_payload, hfalse]
    · simp [set_progress_from_pos, hfalse]
  · intro i hi r hr hne
    have htrue : pyTruthy (some i) = true := by simp [pyTruthy, hi]
    simp only [dri_persist, htrue, if_true, db_update_geom, Option.getD_some]
    have := List.mem_map_of_mem
      (fun r0 : Row => if r0.id = i then { r0 with x := x, y := y, w := w, h := h }
        else r0) hr
    simpa [hne] using this

/-- Witness for C10: with no id, with id 0, and for an unrelated row under a
truthy id, nothing is touched. -/
theorem write_through_gated_witness :
    (dri_persist none 1 2 300 190 ⟨[⟨7, "card", 0, 0, 1, 1, 0, []⟩], 8⟩ =
      ⟨[⟨7, "card", 0, 0, 1, 1, 0, []⟩], 8⟩ ∧
     text_persist_geom none ⟨0, 0⟩ 5 5 ⟨[⟨7, "card", 0, 0, 1, 1, 0, []⟩], 8⟩ =
      ⟨[⟨7, "card", 0, 0, 1, 1, 0, []⟩], 8⟩ ∧
     text_persist_payload none "x" "#ffffff" ⟨[⟨7, "card", 0, 0, 1, 1, 0, []⟩], 8⟩ =
      ⟨[⟨7, "card", 0, 0, 1, 1, 0, []⟩], 8⟩ ∧
     (set_progress_from_pos none "t" "d" 300 190 1 ⟨[⟨7, "card", 0, 0, 1, 1, 0, []⟩], 8⟩).2 =
      ⟨[⟨7, "card", 0, 0, 1, 1, 0, []⟩], 8⟩) ∧
    (⟨7, "card", 0, 0, 1, 1, 0, []⟩ : Row) ∈
      (dri_persist (some 3) 1 2 300 190 ⟨[⟨7, "card", 0, 0, 1, 1, 0, []⟩], 8⟩).rows :=
  ⟨(write_through_gated 1 2 300 190 5 5 ⟨0, 0⟩ "t" "d" "x" "#ffffff"
      ⟨[⟨7, "card", 0, 0, 1, 1, 0, []⟩], 8⟩).1 none (Or.inl rfl),
   (write_through_gated 1 2 300 190 5 5 ⟨0, 0⟩ "t" "d" "x" "#ffffff"
      ⟨[⟨7, "card", 0, 0, 1, 1, 0, []⟩], 8⟩).2 3 (by decide)
      ⟨7, "card", 0, 0, 1, 1, 0, []⟩ (by decide) (by decide)⟩

/-- C8: an accepted card dialog with an empty title is reported and aborts
before any storage insert or scene mutation; an image pick whose file does
not decode is reported and aborts likewise; a successful card creation with a
non-empty title produces exactly one new storage row with kind card and
progress 0, and adds the matching item to the scene. -/
theorem validation_aborts (db : DB) (scene : List SceneItem)
    (title desc path : String) (fs : String → Option Pix) :
    (add_card db scene true "" desc = ⟨db, scene, true⟩) ∧
    (path ≠ "" → fs path = none → add_image db scene path fs = ⟨db, scene, true⟩) ∧
    (title ≠ "" →
      (add_card db scene true title desc).db.rows =
        db.rows ++ [⟨db.nextId, "card", 60, 60, 300, 190, 0,
          [("title", .s title), ("desc", .s desc), ("progress", .i 0)]⟩] ∧
      (add_card db scene true title desc).scene =
        scene ++ [.cardItem (some db.nextId) ⟨title, desc, 0⟩ ⟨60, 60⟩ 300 190] ∧
      (add_card db scene true title desc).errorShown = false) := by
  refine ⟨?_, ?_, ?_⟩
  · simp [add_card]
  · intro hp hfs
    simp [add_image, hp, hfs]
  · intro ht
    simp [add_card, ht, db_insert_item]

/-- Witness for C8: the scenario of the spec — a card titled "Ship v1" with
no description gives one row with kind card and progress 0; an empty title
and a missing image file abort with an error report. -/
theorem validation_aborts_witness :
    (add_card ⟨[], 1⟩ [] true "" "" = ⟨⟨[], 1⟩, [], true⟩) ∧
    ("a.png" ≠ "" ∧ add_image ⟨[], 1⟩ [] "a.png" (fun _ => none) = ⟨⟨[], 1⟩, [], true⟩) ∧
    ("Ship v1" ≠ "" ∧
     (add_card ⟨[], 1⟩ [] true "Ship v1" "").db.rows =
       [] ++ [⟨1, "card", 60, 60, 300, 190, 0,
         [("title", .s "Ship v1"), ("desc", .s ""), ("progress", .i 0)]⟩]) :=
  ⟨(validation_aborts ⟨[], 1⟩ [] "Ship v1" "" "a.png" (fun _ => none)).1,
   ⟨by decide, (validation_aborts ⟨[], 1⟩ [] "Ship v1" "" "a.png"
      (fun _ => none)).2.1 (by decide) rfl⟩,
   ⟨by decide, ((validation_aborts ⟨[], 1⟩ [] "Ship v1" "" "a.png"
      (fun _ => none)).2.2 (by decide)).1⟩⟩

/-- C6: an erase-mode probe searches the ±8-unit square around the pointer;
it removes at most one scene element per probe, any removed element carried a
truthy storage id and intersected the probe square, the only storage row that
can disappear is the one tagged on the removed element, nothing changes when
no intersecting element carries a storage id, and exactly one element is
removed when at least one such candidate exists. -/
theorem erase_one_per_probe (db : DB) (scene : List SceneItem) (pos : Pt) :
    scene.length ≤ (erase_at db scene pos).2.length + 1 ∧
    (∀ it : SceneItem, (erase_at db scene pos).2.count it < scene.count it →
      pyTruthy (itemData0 it) = true ∧
      rectIntersects (itemRect it) (probeRect pos)) ∧
    (∀ r ∈ db.rows, r ∈ (erase_at db scene pos).1.rows ∨
      ∃ it : SceneItem, (erase_at db scene pos).2.count it < scene.count it ∧
        itemData0 it = some r.id) ∧
    ((∀ it ∈ scene, ¬(pyTruthy (itemData0 it) = true ∧
        rectIntersects (itemRect it) (probeRect pos))) →
      erase_at db scene pos = (db, scene)) ∧
    ((∃ it ∈ scene, pyTruthy (itemData0 it) = true ∧
        rectIntersects (itemRect it) (probeRect pos)) →
      (erase_at db scene pos).2.length + 1 = scene.length) := by
  unfold erase_at
  cases hfind : (scene.reverse.filter
      (fun it => decide (rectIntersects (itemRect it) (probeRect pos)))).find?
      (fun it => pyTruthy (itemData0 it)) with
  | none =>
    simp only [hfind]
    refine ⟨by omega, ?_, ?_, ?_, ?_⟩
    · intro it hlt
      omega
    · intro r hr
      exact Or.inl hr
    · intro _
      trivial
    · rintro ⟨it, hmem, htr, hint⟩
      have hfilter : it ∈ scene.reverse.filter
          (fun it => decide (rectIntersects (itemRect it) (probeRect pos))) :=
        List.mem_filter.mpr ⟨List.mem_reverse.mpr hmem, by simpa using hint⟩
      have := List.find?_eq_none.mp hfind it hfilter
      exact absurd htr this
  | some it0 =>
    simp only [hfind]
    have htr : pyTruthy (itemData0 it0) = true := by
      have := List.find?_some hfind
      simpa using this
    have hhit := List.mem_of_find?_eq_some hfind
    have hint : rectIntersects (itemRect it0) (probeRect pos) := by
      have := (List.mem_filter.mp hhit).2
      simpa using this
    have hmem : it0 ∈ scene := List.mem_reverse.mp (List.mem_filter.mp hhit).1
    have hlen : (scene.erase it0).length = scene.length - 1 := by
      rw [List.length_erase]
      simp [hmem]
    have hcnt : ∀ it : SceneItem,
        (scene.erase it0).count it < scene.count it → it = it0 := by
      intro it hlt
      by_contra hne
      rw [List.count_erase] at hlt
      have : (it0 == it) = false := by
        simp only [beq_eq_false_iff_ne]
        exact fun he => hne he.symm
      rw [this] at hlt
      simp only [Bool.false_eq_true, if_false, Nat.sub_zero] at hlt
      omega
    have hpos : 1 ≤ scene.length := List.length_pos.mpr (by
      intro h
      rw [h] at hmem
      cases hmem)
    refine ⟨by omega, ?_, ?_, ?_, ?_⟩
    · intro it hlt
      have := hcnt it hlt
      subst this
      exact ⟨htr, hint⟩
    · intro r hr
      by_cases hid : r.id = (itemData0 it0).getD 0
      · refine Or.inr ⟨it0, ?_, ?_⟩
        · rw [List.count_erase_self]
          have : 1 ≤ scene.count it0 := List.count_pos_iff.mpr hmem
          omega
        · obtain ⟨d, hd⟩ : ∃ d, itemData0 it0 = some d := by
            cases hopt : itemData0 it0 with
            | none => rw [hopt] at htr; simp [pyTruthy] at htr
            | some d => exact ⟨d, rfl⟩
          rw [hd]
          rw [hd] at hid
          simp at hid
          rw [hid]
      · exact Or.inl (List.mem_filter.mpr ⟨hr, by simpa using hid⟩)
    · intro hno
      exact absurd ⟨htr, hint⟩ (hno it0 hmem)
    · intro _
      omega

/-- Witness for C6: two strokes overlap the probe square at (5, 5); exactly
one element is removed by the probe. -/
theorem erase_one_per_probe_witness :
    (∃ it ∈ [SceneItem.pathItem (some 1) [⟨0, 0⟩, ⟨10, 10⟩] 3 "#111111",
        SceneItem.pathItem (some 2) [⟨1, 1⟩, ⟨9, 9⟩] 3 "#111111"],
      pyTruthy (itemData0 it) = true ∧
      rectIntersects (itemRect it) (probeRect ⟨5, 5⟩)) ∧
    (erase_at ⟨[⟨1, "draw", 0, 0, 10, 10, 0, []⟩, ⟨2, "draw", 1, 1, 8, 8, 0, []⟩], 3⟩
      [SceneItem.pathItem (some 1) [⟨0, 0⟩, ⟨10, 10⟩] 3 "#111111",
       SceneItem.pathItem (some 2) [⟨1, 1⟩, ⟨9, 9⟩] 3 "#111111"]
      ⟨5, 5⟩).2.length + 1 =
    ([SceneItem.pathItem (some 1) [⟨0, 0⟩, ⟨10, 10⟩] 3 "#111111",
      SceneItem.pathItem (some 2) [⟨1, 1⟩, ⟨9, 9⟩] 3 "#111111"] :
        List SceneItem).length := by
  have hcand : ∃ it ∈ [SceneItem.pathItem (some 1) [⟨0, 0⟩, ⟨10, 10⟩] 3 "#111111",
      SceneItem.pathItem (some 2) [⟨1, 1⟩, ⟨9, 9⟩] 3 "#111111"],
      pyTruthy (itemData0 it) = true ∧
      rectIntersects (itemRect it) (probeRect ⟨5, 5⟩) := by
    refine ⟨SceneItem.pathItem (some 1) [⟨0, 0⟩, ⟨10, 10⟩] 3 "#111111",
      List.mem_cons_self _ _, rfl, ?_⟩
    simp only [itemRect, probeRect, bbox, rectIntersects, List.foldl]
    norm_num
  exact ⟨hcand,
    (erase_one_per_probe
      ⟨[⟨1, "draw", 0, 0, 10, 10, 0, []⟩, ⟨2, "draw", 1, 1, 8, 8, 0, []⟩], 3⟩
      [SceneItem.pathItem (some 1) [⟨0, 0⟩, ⟨10, 10⟩] 3 "#111111",
       SceneItem.pathItem (some 2) [⟨1, 1⟩, ⟨9, 9⟩] 3 "#111111"]
      ⟨5, 5⟩).2.2.2.2 hcand⟩

/-- Records whose loader silently skips them can be dropped from the record
list without changing the reload result. -/
theorem loadRecords_append_skip (fs : String → Option Pix) (b : Row)
    (hb : loadRec fs b = .ok none) (l1 l2 : List Row) :
    loadRecords fs (l1 ++ b :: l2) = loadRecords fs (l1 ++ l2) := by
  induction l1 with
  | nil => simp [loadRecords, hb]
  | cons a l ih =>
    simp only [List.cons_append, loadRecords]
    simp only [List.append_eq]
    simp only [ih]

/-- C7 counterexample: a stored card record whose progress field holds a list
(a payload shape int() cannot convert) makes the whole load raise instead of
being skipped: load_from_db returns an error, so the remaining records never
load. -/
theorem reload_crashes_on_malformed_payload :
    load_from_db (fun _ => none)
      ⟨[⟨1, "card", 0, 0, 300, 190, 0, [("progress", .pts [⟨0, 0⟩])]⟩,
        ⟨2, "card", 1, 1, 300, 190, 0,
          [("title", .s "ok"), ("desc", .s ""), ("progress", .i 0)]⟩], 3⟩ =
      .error "int: invalid progress" := rfl

/-- C7 amended: a stored record with an unknown kind, or an image record
whose source path no longer resolves, is skipped silently and the remaining
records load exactly as they would without it (a hole, not an error). -/
theorem reload_skips_unknown_and_missing_image (fs : String → Option Pix)
    (l1 l2 : List Row) (r : Row)
    (h : (r.type ≠ "card" ∧ r.type ≠ "image" ∧ r.type ≠ "text" ∧ r.type ≠ "draw") ∨
      (r.type = "image" ∧ ∃ p, jGet r.payload "path" = some (.s p) ∧ p ≠ "" ∧
        fs p = none)) :
    loadRecords fs (l1 ++ r :: l2) = loadRecords fs (l1 ++ l2) := by
  apply loadRecords_append_skip
  rcases h with ⟨h1, h2, h3, h4⟩ | ⟨h1, p, hp, hpe, hfs⟩
  · simp [loadRec, h1, h2, h3, h4]
  · have hc : r.type ≠ "card" := by rw [h1]; decide
    have hfalsy : jFalsy (.s p) = false := by
      simp only [jFalsy, beq_eq_false_iff_ne, ne_eq]
      exact hpe
    simp [loadRec, hc, h1, hp, hfalsy, hfs]

/-- Witness for the amended C7: an unknown-kind record in the middle of the
table is skipped and the rest loads unchanged. -/
theorem reload_skips_witness :
    ((("blob" : String) ≠ "card" ∧ ("blob" : String) ≠ "image" ∧
      ("blob" : String) ≠ "text" ∧ ("blob" : String) ≠ "draw")) ∧
    loadRecords (fun _ => none)
      ([⟨1, "card", 0, 0, 300, 190, 0,
          [("title", .s "ok"), ("desc", .s ""), ("progress", .i 0)]⟩] ++
        ⟨2, "blob", 0, 0, 1, 1, 0, []⟩ ::
        [⟨3, "text", 4, 5, 1, 1, 0, [("html", .s "x"), ("color", .s "#ffffff")]⟩]) =
    loadRecords (fun _ => none)
      ([⟨1, "card", 0, 0, 300, 190, 0,
          [("title", .s "ok"), ("desc", .s ""), ("progress", .i 0)]⟩] ++
        [⟨3, "text", 4, 5, 1, 1, 0, [("html", .s "x"), ("color", .s "#ffffff")]⟩]) :=
  ⟨by decide,
   reload_skips_unknown_and_missing_image (fun _ => none)
     [⟨1, "card", 0, 0, 300, 190, 0,
        [("title", .s "ok"), ("desc", .s ""), ("progress", .i 0)]⟩]
     [⟨3, "text", 4, 5, 1, 1, 0, [("html", .s "x"), ("color", .s "#ffffff")]⟩]
     ⟨2, "blob", 0, 0, 1, 1, 0, []⟩
     (Or.inl (by decide))⟩

/-- The id i has a backing storage row. -/
def HasRow (db : DB) (i : ℕ) : Prop :=
  ∃ r ∈ db.rows, r.id = i

/-- Every visible item that carries a storage id has a backing row. -/
def SceneCovered (db : DB) (scene : List SceneItem) : Prop :=
  ∀ it ∈ scene, ∀ i, itemId it = some i → HasRow db i

theorem HasRow_append (db : DB) (x : Row) (n : ℕ) (i : ℕ) (h : HasRow db i) :
    HasRow ⟨db.rows ++ [x], n⟩ i := by
  obtain ⟨r, hr, hid⟩ := h
  exact ⟨r, List.mem_append_left _ hr, hid⟩

theorem covered_append_new (db : DB) (scene : List SceneItem)
    (hcov : SceneCovered db scene) (nrow : Row) (nit : SceneItem) (n : ℕ)
    (hid : ∀ i, itemId nit = some i → i = nrow.id) :
    SceneCovered ⟨db.rows ++ [nrow], n⟩ (scene ++ [nit]) := by
  intro it hit i hi
  rcases List.mem_append.mp hit with hl | hr
  · exact HasRow_append db nrow n i (hcov it hl i hi)
  · have he : it = nit := by simpa using hr
    subst he
    exact ⟨nrow, List.mem_append_right _ (by simp), ((hid i hi).symm : nrow.id = i)⟩

/-- C9 counterexample: pointer-down in draw mode adds the visible path
element to the scene immediately, with no storage id and no row inserted (the
stroke row only appears at pointer-up), so an item is visible on the canvas
without any corresponding storage row. -/
theorem stroke_visible_before_insert :
    (boardView_mousePress ⟨"draw", false, none, "#111111", 3⟩ [] ⟨0, 0⟩).2 =
      [.pathItem none [⟨0, 0⟩] ((3 : ℤ) : ℚ) "#111111"] ∧
    itemId (.pathItem none [⟨0, 0⟩] ((3 : ℤ) : ℚ) "#111111") = none :=
  ⟨rfl, rfl⟩

/-- C9 amended: cards, images and text items are inserted into storage,
receiving an id, before being added to the scene, and a completed stroke is
tagged with its freshly inserted id at finalization, so every creation entry
point preserves the invariant that each visible item carrying a storage id
has a backing row; the in-progress stroke path, however, is added to the
scene at pointer-down without an id (and without a row) and only receives
both at pointer-up. -/
theorem creation_ordering (db : DB) (scene : List SceneItem)
    (hcov : SceneCovered db scene) :
    (∀ title desc : String, title ≠ "" →
      SceneCovered (add_card db scene true title desc).db
        (add_card db scene true title desc).scene ∧
      (.cardItem (some db.nextId) ⟨title, desc, 0⟩ ⟨60, 60⟩ 300 190) ∈
        (add_card db scene true title desc).scene ∧
      HasRow (add_card db scene true title desc).db db.nextId) ∧
    (∀ (path : String) (fs : String → Option Pix) (pix : Pix),
      path ≠ "" → fs path = some pix →
      SceneCovered (add_image db scene path fs).db
        (add_image db scene path fs).scene ∧
      (.imageItem (some db.nextId) path ⟨120, 120⟩ (imageDefaultSize pix).1
        (imageDefaultSize pix).2) ∈ (add_image db scene path fs).scene ∧
      HasRow (add_image db scene path fs).db db.nextId) ∧
    (∀ (colorName : String) (p : Pt),
      SceneCovered (add_text_at db scene colorName p).1
        (add_text_at db scene colorName p).2 ∧
      (.textItem (some db.nextId) colorName "" p) ∈
        (add_text_at db scene colorName p).2 ∧
      HasRow (add_text_at db scene colorName p).1 db.nextId) ∧
    (∀ (path_item : SceneItem) (pts : List Pt) (color : String) (width : ℤ),
      SceneCovered (save_draw_path db scene path_item pts color width).1
        (save_draw_path db scene path_item pts color width).2) ∧
    (∀ (vs : ViewState) (p : Pt),
      SceneCovered db (boardView_mousePress vs scene p).2) := by
  refine ⟨?_, ?_, ?_, ?_, ?_⟩
  · intro title desc ht
    have he : add_card db scene true title desc =
        ⟨⟨db.rows ++ [⟨db.nextId, "card", 60, 60, 300, 190, 0,
            [("title", .s title), ("desc", .s desc), ("progress", .i 0)]⟩],
          db.nextId + 1⟩,
         scene ++ [.cardItem (some db.nextId) ⟨title, desc, 0⟩ ⟨60, 60⟩ 300 190],
         false⟩ := by
      simp [add_card, ht, db_insert_item]
    rw [he]
    refine ⟨covered_append_new db scene hcov _ _ _ ?_, by simp, ?_⟩
    · intro i hi
      simpa [itemId] using hi.symm
    · exact ⟨⟨db.nextId, "card", 60, 60, 300, 190, 0,
        [("title", .s title), ("desc", .s desc), ("progress", .i 0)]⟩,
        List.mem_append_right _ (by simp), rfl⟩
  · intro path fs pix hp hfs
    have he : add_image db scene path fs =
        ⟨⟨db.rows ++ [⟨db.nextId, "image", 120, 120, (imageDefaultSize pix).1,
            (imageDefaultSize pix).2, 0, [("path", .s path)]⟩], db.nextId + 1⟩,
         scene ++ [.imageItem (some db.nextId) path ⟨120, 120⟩
           (imageDefaultSize pix).1 (imageDefaultSize pix).2],
         false⟩ := by
      simp [add_image, hp, hfs, db_insert_item]
    rw [he]
    refine ⟨covered_append_new db scene hcov _ _ _ ?_, by simp, ?_⟩
    · intro i hi
      simpa [itemId] using hi.symm
    · exact ⟨⟨db.nextId, "image", 120, 120, (imageDefaultSize pix).1,
        (imageDefaultSize pix).2, 0, [("path", .s path)]⟩,
        List.mem_append_right _ (by simp), rfl⟩
  · intro colorName p
    refine ⟨covered_append_new db scene hcov
      ⟨db.nextId, "text", p.x, p.y, 1, 1, 0,
        [("html", .s ""), ("color", .s colorName)]⟩ _ _ ?_, by
        simp [add_text_at, db_insert_item], ?_⟩
    · intro i hi
      simpa [itemId] using hi.symm
    · exact ⟨⟨db.nextId, "text", p.x, p.y, 1, 1, 0,
        [("html", .s ""), ("color", .s colorName)]⟩,
        List.mem_append_right _ (by simp), rfl⟩
  · intro path_item pts color width
    by_cases hlen : pts.length < 2
    · have he : save_draw_path db scene path_item pts color width =
          (db, scene.erase path_item) := by
        unfold save_draw_path
        rw [if_pos hlen]
      rw [he]
      intro it hit i hi
      exact hcov it (List.mem_of_mem_erase hit) i hi
    · have he : save_draw_path db scene path_item pts color width =
          (⟨db.rows ++ [⟨db.nextId, "draw", (bbox pts).x, (bbox pts).y,
              (bbox pts).w, (bbox pts).h, 0, [("points", .pts pts),
              ("width", .i width), ("color", .s color)]⟩], db.nextId + 1⟩,
           scene.map (fun it => if it = path_item then setData0 it db.nextId
             else it)) := by
        unfold save_draw_path
        rw [if_neg hlen]
        simp [db_insert_item]
      rw [he]
      intro it2 hit2 i hi
      obtain ⟨it, hmem, heq⟩ := List.mem_map.mp hit2
      by_cases hcase : it = path_item
      · rw [if_pos hcase] at heq
        cases it with
        | pathItem d0 p0 w0 c0 =>
          rw [← heq] at hi
          simp only [setData0, itemId] at hi
          exact ⟨⟨db.nextId, "draw", (bbox pts).x, (bbox pts).y, (bbox pts).w,
            (bbox pts).h, 0, [("points", .pts pts), ("width", .i width),
            ("color", .s color)]⟩, List.mem_append_right _ (by simp),
            (Option.some_inj.mp hi : db.nextId = i)⟩
        | cardItem a b c d e =>
          rw [← heq] at hi
          simp only [setData0] at hi
          exact HasRow_append db _ _ i (hcov _ hmem i hi)
        | imageItem a b c d e =>
          rw [← heq] at hi
          simp only [setData0] at hi
          exact HasRow_append db _ _ i (hcov _ hmem i hi)
        | textItem a b c d =>
          rw [← heq] at hi
          simp only [setData0] at hi
          exact HasRow_append db _ _ i (hcov _ hmem i hi)
      · rw [if_neg hcase] at heq
        subst heq
        exact HasRow_append db _ _ i (hcov _ hmem i hi)
  · intro vs p
    by_cases hm : vs.mode = "draw"
    · have he : (boardView_mousePress vs scene p).2 =
          scene ++ [.pathItem none [p] (vs.draw_width : ℚ) vs.draw_color] := by
        simp [boardView_mousePress, hm]
      rw [he]
      intro it hit i hi
      rcases List.mem_append.mp hit with hl | hr
      · exact hcov it hl i hi
      · have : it = .pathItem none [p] (vs.draw_width : ℚ) vs.draw_color := by
          simpa using hr
        subst this
        simp [itemId] at hi
    · have he : (boardView_mousePress vs scene p).2 = scene := by
        simp [boardView_mousePress, hm]
      rw [he]
      exact hcov

/-- Witness for the amended C9: from an empty board, creating a card inserts
the row first, so the new visible item's id is backed by a row and the
coverage invariant holds afterwards. -/
theorem creation_ordering_witness :
    (.cardItem (some 1) ⟨"Ship v1", "", 0⟩ ⟨60, 60⟩ 300 190) ∈
      (add_card ⟨[], 1⟩ [] true "Ship v1" "").scene ∧
    HasRow (add_card ⟨[], 1⟩ [] true "Ship v1" "").db 1 :=
  ⟨((creation_ordering ⟨[], 1⟩ []
      (fun it hit => absurd hit (List.not_mem_nil it))).1 "Ship v1" ""
      (by decide)).2.1,
   ((creation_ordering ⟨[], 1⟩ []
      (fun it hit => absurd hit (List.not_mem_nil it))).1 "Ship v1" ""
      (by decide)).2.2⟩

/-- When the whole load succeeds, every record was processed successfully and
its reconstructed item (when it produced one) is in the resulting scene. -/
theorem loadRecords_ok_forward (fs : String → Option Pix) :
    ∀ (recs : List Row) (scene : List SceneItem),
    loadRecords fs recs = .ok scene →
    ∀ r ∈ recs, ∃ o, loadRec fs r = .ok o ∧ ∀ it, o = some it → it ∈ scene := by
  intro recs
  induction recs with
  | nil =>
    intro scene _ r hr
    cases hr
  | cons a rs ih =>
    intro scene hok r hr
    simp only [loadRecords] at hok
    cases ha : loadRec fs a with
    | error e =>
      rw [ha] at hok
      cases hok
    | ok o =>
      rw [ha] at hok
      cases o with
      | none =>
        rcases List.mem_cons.mp hr with rfl | hm
        · exact ⟨none, ha, fun it h => by cases h⟩
        · exact ih scene hok r hm
      | some it0 =>
        cases hrest : loadRecords fs rs with
        | error e =>
          rw [hrest] at hok
          cases hok
        | ok s =>
          rw [hrest] at hok
          have hs : it0 :: s = scene := by
            injection hok
          subst hs
          rcases List.mem_cons.mp hr with rfl | hm
          · refine ⟨some it0, ha, ?_⟩
            intro it h
            have : it0 = it := by injection h
            subst this
            exact List.mem_cons_self _ _
          · obtain ⟨o, ho, himp⟩ := ih s hrest r hm
            exact ⟨o, ho, fun it h => List.mem_cons_of_mem _ (himp it h)⟩

/-- When the whole load succeeds, every item of the resulting scene was
reconstructed from some stored record. -/
theorem loadRecords_ok_backward (fs : String → Option Pix) :
    ∀ (recs : List Row) (scene : List SceneItem),
    loadRecords fs recs = .ok scene →
    ∀ it ∈ scene, ∃ r ∈ recs, loadRec fs r = .ok (some it) := by
  intro recs
  induction recs with
  | nil =>
    intro scene hok it hit
    have : ([] : List SceneItem) = scene := by
      simpa [loadRecords] using hok
    subst this
    cases hit
  | cons a rs ih =>
    intro scene hok it hit
    simp only [loadRecords] at hok
    cases ha : loadRec fs a with
    | error e =>
      rw [ha] at hok
      cases hok
    | ok o =>
      rw [ha] at hok
      cases o with
      | none =>
        obtain ⟨r, hr, hload⟩ := ih scene hok it hit
        exact ⟨r, List.mem_cons_of_mem _ hr, hload⟩
      | some it0 =>
        cases hrest : loadRecords fs rs with
        | error e =>
          rw [hrest] at hok
          cases hok
        | ok s =>
          rw [hrest] at hok
          have hs : it0 :: s = scene := by
            injection hok
          subst hs
          rcases List.mem_cons.mp hit with rfl | hm
          · exact ⟨a, List.mem_cons_self _ _, ha⟩
          · obtain ⟨r, hr, hload⟩ := ih s hrest it hm
            exact ⟨r, List.mem_cons_of_mem _ hr, hload⟩

/-- Every reconstructed item carries the id of the record it came from. -/
theorem loadRec_ok_itemId (fs : String → Option Pix) (r : Row)
    (it : SceneItem) (h : loadRec fs r = .ok (some it)) :
    itemId it = some r.id := by
  simp only [loadRec] at h
  repeat' split at h
  all_goals first
    | exact Except.noConfusion h
    | (injection h with h2
       first
         | exact Option.noConfusion h2
         | (injection h2 with h3
            subst h3
            rfl))

theorem loadRec_card (fs : String → Option Pix) (idv : ℕ) (x y w h : ℚ)
    (z : ℤ) (title desc : String) :
    loadRec fs ⟨idv, "card", x, y, w, h, z,
      [("title", .s title), ("desc", .s desc), ("progress", .i 0)]⟩ =
    .ok (some (.cardItem (some idv) ⟨title, desc, 0⟩ ⟨x, y⟩ w h)) := by
  simp [loadRec, jGetD, jGet, asIntPy, jStr, List.find?]

theorem loadRec_image_resolves (fs : String → Option Pix) (idv : ℕ)
    (x y w h : ℚ) (z : ℤ) (path : String) (pix : Pix)
    (hpe : path ≠ "") (hfs : fs path = some pix) :
    loadRec fs ⟨idv, "image", x, y, w, h, z, [("path", .s path)]⟩ =
    .ok (some (.imageItem (some idv) path ⟨x, y⟩ w h)) := by
  have hfalsy : jFalsy (.s path) = false := by
    simp only [jFalsy, beq_eq_false_iff_ne, ne_eq]
    exact hpe
  simp [loadRec, jGet, hfalsy, hfs, List.find?]

theorem loadRec_image_missing (fs : String → Option Pix) (idv : ℕ)
    (x y w h : ℚ) (z : ℤ) (path : String)
    (hpe : path ≠ "") (hfs : fs path = none) :
    loadRec fs ⟨idv, "image", x, y, w, h, z, [("path", .s path)]⟩ =
    .ok none := by
  have hfalsy : jFalsy (.s path) = false := by
    simp only [jFalsy, beq_eq_false_iff_ne, ne_eq]
    exact hpe
  simp [loadRec, jGet, hfalsy, hfs, List.find?]

theorem loadRec_text (fs : String → Option Pix) (idv : ℕ) (x y w h : ℚ)
    (z : ℤ) (colorName : String) :
    loadRec fs ⟨idv, "text", x, y, w, h, z,
      [("html", .s ""), ("color", .s colorName)]⟩ =
    .ok (some (.textItem (some idv) colorName "" ⟨x, y⟩)) := by
  simp [loadRec, jGetD, jGet, htmlOf, colorOf, jStr, List.find?]

theorem loadRec_draw (fs : String → Option Pix) (idv : ℕ) (x y w h : ℚ)
    (z : ℤ) (pts : List Pt) (width : ℤ) (color : String)
    (hlen : 2 ≤ pts.length) :
    loadRec fs ⟨idv, "draw", x, y, w, h, z,
      [("points", .pts pts), ("width", .i width), ("color", .s color)]⟩ =
    .ok (some (.pathItem (some idv) pts (width : ℚ) color)) := by
  have hnlt : ¬ pts.length < 2 := not_lt.mpr hlen
  simp [loadRec, jGetD, jGet, asFloatPy, jLen, colorOf, jStr, hnlt, List.find?]

/-- C1: creating an item through any creation entry point and then reloading
the full session from storage reproduces an item with the same kind,
position, size and payload (exactly, since the arithmetic is exact): the
card, image, text and stroke cases each put the matching reconstructed item
in the reloaded scene, and an image whose source file no longer resolves at
reload time is absent from the reloaded scene (no item carries its id)
rather than erroring. -/
theorem round_trip_storage (db : DB) (scene : List SceneItem)
    (fs fs2 : String → Option Pix) :
    (∀ (title desc : String) (scene2 : List SceneItem), title ≠ "" →
      load_from_db fs2 (add_card db scene true title desc).db = .ok scene2 →
      (.cardItem (some db.nextId) ⟨title, desc, 0⟩ ⟨60, 60⟩ 300 190) ∈ scene2) ∧
    (∀ (path : String) (pix pix2 : Pix) (scene2 : List SceneItem), path ≠ "" →
      fs path = some pix → fs2 path = some pix2 →
      load_from_db fs2 (add_image db scene path fs).db = .ok scene2 →
      (.imageItem (some db.nextId) path ⟨120, 120⟩ (imageDefaultSize pix).1
        (imageDefaultSize pix).2) ∈ scene2) ∧
    (∀ (path : String) (pix : Pix) (scene2 : List SceneItem), db.Wf →
      path ≠ "" → fs path = some pix → fs2 path = none →
      load_from_db fs2 (add_image db scene path fs).db = .ok scene2 →
      ∀ it ∈ scene2, itemId it ≠ some db.nextId) ∧
    (∀ (colorName : String) (p : Pt) (scene2 : List SceneItem),
      load_from_db fs2 (add_text_at db scene colorName p).1 = .ok scene2 →
      (.textItem (some db.nextId) colorName "" p) ∈ scene2) ∧
    (∀ (path_item : SceneItem) (pts : List Pt) (color : String) (width : ℤ)
      (scene2 : List SceneItem), 2 ≤ pts.length →
      load_from_db fs2 (save_draw_path db scene path_item pts color width).1 =
        .ok scene2 →
      (.pathItem (some db.nextId) pts (width : ℚ) color) ∈ scene2) := by
  refine ⟨?_, ?_, ?_, ?_, ?_⟩
  · intro title desc scene2 ht hok
    have hrow : (⟨db.nextId, "card", 60, 60, 300, 190, 0,
        [("title", .s title), ("desc", .s desc), ("progress", .i 0)]⟩ : Row) ∈
        (add_card db scene true title desc).db.rows := by
      simp [add_card, ht, db_insert_item]
    obtain ⟨o, ho, himp⟩ := loadRecords_ok_forward fs2 _ scene2 hok _
      ((List.mem_insertionSort rowLe).mpr hrow)
    rw [loadRec_card] at ho
    injection ho with h2
    exact himp _ h2.symm
  · intro path pix pix2 scene2 hpe hfs hfs2 hok
    have hrow : (⟨db.nextId, "image", 120, 120, (imageDefaultSize pix).1,
        (imageDefaultSize pix).2, 0, [("path", .s path)]⟩ : Row) ∈
        (add_image db scene path fs).db.rows := by
      simp [add_image, hpe, hfs, db_insert_item]
    obtain ⟨o, ho, himp⟩ := loadRecords_ok_forward fs2 _ scene2 hok _
      ((List.mem_insertionSort rowLe).mpr hrow)
    rw [loadRec_image_resolves fs2 _ _ _ _ _ _ _ pix2 hpe hfs2] at ho
    injection ho with h2
    exact himp _ h2.symm
  · intro path pix scene2 hwf hpe hfs hfs2 hok it hit hid
    obtain ⟨r, hr, hload⟩ := loadRecords_ok_backward fs2 _ scene2 hok it hit
    have hidr : itemId it = some r.id := loadRec_ok_itemId fs2 r it hload
    rw [hid] at hidr
    injection hidr with h3
    have hrows : (add_image db scene path fs).db.rows =
        db.rows ++ [⟨db.nextId, "image", 120, 120, (imageDefaultSize pix).1,
          (imageDefaultSize pix).2, 0, [("path", .s path)]⟩] := by
      simp [add_image, hpe, hfs, db_insert_item]
    have hrmem : r ∈ (add_image db scene path fs).db.rows :=
      (List.mem_insertionSort rowLe).mp hr
    rw [hrows] at hrmem
    rcases List.mem_append.mp hrmem with hold | hnew
    · exact absurd h3.symm (ne_of_lt (hwf.2 r hold))
    · have hr2 : r = ⟨db.nextId, "image", 120, 120, (imageDefaultSize pix).1,
          (imageDefaultSize pix).2, 0, [("path", .s path)]⟩ := by
        simpa using hnew
      rw [hr2, loadRec_image_missing fs2 _ _ _ _ _ _ _ hpe hfs2] at hload
      injection hload with h4
      exact Option.noConfusion h4
  · intro colorName p scene2 hok
    have hrow : (⟨db.nextId, "text", p.x, p.y, 1, 1, 0,
        [("html", .s ""), ("color", .s colorName)]⟩ : Row) ∈
        (add_text_at db scene colorName p).1.rows := by
      simp [add_text_at, db_insert_item]
    obtain ⟨o, ho, himp⟩ := loadRecords_ok_forward fs2 _ scene2 hok _
      ((List.mem_insertionSort rowLe).mpr hrow)
    rw [loadRec_text] at ho
    injection ho with h2
    exact himp _ h2.symm
  · intro path_item pts color width scene2 hlen hok
    have hnlt : ¬ pts.length < 2 := not_lt.mpr hlen
    have hrow : (⟨db.nextId, "draw", (bbox pts).x, (bbox pts).y, (bbox pts).w,
        (bbox pts).h, 0, [("points", .pts pts), ("width", .i width),
        ("color", .s color)]⟩ : Row) ∈
        (save_draw_path db scene path_item pts color width).1.rows := by
      unfold save_draw_path
      rw [if_neg hnlt]
      simp [db_insert_item]
    obtain ⟨o, ho, himp⟩ := loadRecords_ok_forward fs2 _ scene2 hok _
      ((List.mem_insertionSort rowLe).mpr hrow)
    rw [loadRec_draw fs2 _ _ _ _ _ _ _ _ _ hlen] at ho
    injection ho with h2
    exact himp _ h2.symm

/-- Witness for C1: concrete round trips from small boards — a card, an
image whose file resolves, an image whose file has gone missing (its id is
absent from the reloaded scene while the other record still loads), a text
item, and a stroke. -/
theorem round_trip_storage_witness :
    ((.cardItem (some 1) ⟨"Ship v1", "", 0⟩ ⟨60, 60⟩ 300 190) ∈
      [SceneItem.cardItem (some 1) ⟨"Ship v1", "", 0⟩ ⟨60, 60⟩ 300 190]) ∧
    ((.imageItem (some 1) "a.png" ⟨120, 120⟩ (imageDefaultSize ⟨200, 100⟩).1
        (imageDefaultSize ⟨200, 100⟩).2) ∈
      [SceneItem.imageItem (some 1) "a.png" ⟨120, 120⟩
        (imageDefaultSize ⟨200, 100⟩).1 (imageDefaultSize ⟨200, 100⟩).2]) ∧
    (∀ it ∈ [SceneItem.cardItem (some 1) ⟨"t", "", 0⟩ ⟨0, 0⟩ 300 190],
      itemId it ≠ some 2) ∧
    ((.textItem (some 1) "#f2f2f2" "" ⟨3, 4⟩) ∈
      [SceneItem.textItem (some 1) "#f2f2f2" "" ⟨3, 4⟩]) ∧
    ((.pathItem (some 1) [⟨0, 0⟩, ⟨10, 0⟩, ⟨10, 10⟩] ((3 : ℤ) : ℚ) "#111111") ∈
      [SceneItem.pathItem (some 1) [⟨0, 0⟩, ⟨10, 0⟩, ⟨10, 10⟩]
        ((3 : ℤ) : ℚ) "#111111"]) :=
  ⟨(round_trip_storage ⟨[], 1⟩ []
      (fun s => if s = "a.png" then some ⟨200, 100⟩ else none)
      (fun s => if s = "a.png" then some ⟨200, 100⟩ else none)).1
      "Ship v1" "" _ (by decide) rfl,
   (round_trip_storage ⟨[], 1⟩ []
      (fun s => if s = "a.png" then some ⟨200, 100⟩ else none)
      (fun s => if s = "a.png" then some ⟨200, 100⟩ else none)).2.1
      "a.png" ⟨200, 100⟩ ⟨200, 100⟩ _ (by decide) rfl rfl rfl,
   (round_trip_storage
      ⟨[⟨1, "card", 0, 0, 300, 190, 0,
        [("title", .s "t"), ("desc", .s ""), ("progress", .i 0)]⟩], 2⟩ []
      (fun s => if s = "a.png" then some ⟨200, 100⟩ else none)
      (fun _ => none)).2.2.1
      "a.png" ⟨200, 100⟩ _ ⟨by decide, by decide⟩ (by decide) rfl rfl rfl,
   (round_trip_storage ⟨[], 1⟩ []
      (fun s => if s = "a.png" then some ⟨200, 100⟩ else none)
      (fun s => if s = "a.png" then some ⟨200, 100⟩ else none)).2.2.2.1
      "#f2f2f2" ⟨3, 4⟩ _ rfl,
   (round_trip_storage ⟨[], 1⟩ []
      (fun s => if s = "a.png" then some ⟨200, 100⟩ else none)
      (fun s => if s = "a.png" then some ⟨200, 100⟩ else none)).2.2.2.2
      (.pathItem none [⟨0, 0⟩, ⟨10, 0⟩, ⟨10, 10⟩] 3 "#111111")
      [⟨0, 0⟩, ⟨10, 0⟩, ⟨10, 10⟩] "#111111" 3 _ (by decide) rfl⟩

end Deathnote
